import Mathlib

/-!
# Verification of the Solidity `DeclarationContainer` scope table

Shallow embedding of `libsolidity/analysis/DeclarationContainer`
(interface in `src/libsolidity/analysis/DeclarationContainer.h`):
the per-lexical-scope symbol table mapping names to ordered binding
sets of declarations, with visible and invisible mappings, a link to
the enclosing scope, registration with conflict detection, and
recursive name resolution.

Only the header (declarations and documentation comments) of
`DeclarationContainer` is part of the available sources; the member
function bodies live in `DeclarationContainer.cpp`, which is not
available.  The operation bodies below are therefore modelled from the
specification (sections 4.1 to 4.3 of the design document), faithful to
its wording; each such definition carries a doc comment saying so.
-/

/--
A `Declaration` is an opaque external entity: the scope table treats it
as an identity (`declId`, standing for the C++ reference identity),
plus its intrinsic `name` and whether it is `overloadable`
(function-like declarations are overloadable, others are not).
-/
structure Declaration where
  declId : Nat
  name : String
  overloadable : Bool
deriving DecidableEq

/--
A `DeclarationContainer` (scope table): an optional enclosing
container (`m_enclosingContainer`, a nullable pointer: `outermost`
models a null enclosing pointer, `nested` a non-null one), a visible
mapping `m_declarations` and an invisible mapping
`m_invisibleDeclarations`, each from name to the ordered binding set of
declarations under that name (an absent key and an empty binding set
behave identically, so the mappings are modelled as total functions
into lists, defaulting to the empty list).  The `m_enclosingNode`
handle is an opaque pass-through never interpreted by the operations
and is omitted from the state.
-/
inductive DeclarationContainer : Type where
  | outermost :
      (String → List Declaration) →
      (String → List Declaration) →
      DeclarationContainer
  | nested :
      DeclarationContainer →
      (String → List Declaration) →
      (String → List Declaration) →
      DeclarationContainer

namespace DeclarationContainer

/-- The enclosing scope table, if any (`m_enclosingContainer`). -/
def enclosingContainer : DeclarationContainer → Option DeclarationContainer
  | .outermost _ _ => none
  | .nested enc _ _ => some enc

/-- The visible mapping (`m_declarations`), read at a name. -/
def declarations : DeclarationContainer → String → List Declaration
  | .outermost ds _, n => ds n
  | .nested _ ds _, n => ds n

/-- The invisible mapping (`m_invisibleDeclarations`), read at a name. -/
def invisibleDeclarations : DeclarationContainer → String → List Declaration
  | .outermost _ inv, n => inv n
  | .nested _ _ inv, n => inv n

/-- Replace the visible binding set of one name. -/
def setVisible : DeclarationContainer → String → List Declaration → DeclarationContainer
  | .outermost ds inv, n, l => .outermost (fun m => if m = n then l else ds m) inv
  | .nested enc ds inv, n, l => .nested enc (fun m => if m = n then l else ds m) inv

/-- Replace the invisible binding set of one name. -/
def setInvisible : DeclarationContainer → String → List Declaration → DeclarationContainer
  | .outermost ds inv, n, l => .outermost ds (fun m => if m = n then l else inv m)
  | .nested enc ds inv, n, l => .nested enc ds (fun m => if m = n then l else inv m)

/--
The effective name of a registration: the explicit name override when
one is supplied, otherwise the declaration's own intrinsic name
(parameter `_name` of `registerDeclaration` and
`conflictingDeclaration`: "if nullptr the intrinsic name of
`_declaration` is used").
-/
def effectiveName (d : Declaration) (nameOverride : Option String) : String :=
  nameOverride.getD d.name

/--
Modelled from the spec: the body of
`DeclarationContainer::conflictingDeclaration` is in the unavailable
`DeclarationContainer.cpp`.  Following section 4.3: resolve the
effective name, search both the visible and the invisible mappings of
this scope (never enclosing scopes) for existing members under that
name; a member conflicts with the new declaration unless both are
overloadable; return the first conflicting existing member, or nothing
when no member conflicts (in particular when no binding set exists).
The operation is a pure query and mutates nothing, which the `const`
signature in the header also promises.
-/
def conflictingDeclaration (c : DeclarationContainer) (d : Declaration)
    (nameOverride : Option String) : Option Declaration :=
  let n := effectiveName d nameOverride
  let existing := c.declarations n ++ c.invisibleDeclarations n
  existing.find? (fun m => !(d.overloadable && m.overloadable))

/--
Modelled from the spec: the body of
`DeclarationContainer::registerDeclaration` is in the unavailable
`DeclarationContainer.cpp`.  Following section 4.1: resolve the
effective name; an empty effective name registers nothing and reports
success.  The target mapping is the invisible one when the `invisible`
flag is set, the visible one otherwise.  With `update` set, the
existing binding set for the name in the target mapping is
unconditionally replaced by the singleton of this declaration,
bypassing conflict detection.  Otherwise the conflict test of section
4.3 governs failure (steps 4 and 5 of 4.1 together with sections 4.2
and 8: an occupied name, visibly or invisibly, conflicts unless every
involved declaration is overloadable); on conflict the call fails and
changes nothing, and otherwise the declaration is appended to the
target binding set.  Returns the success flag and the resulting table.
-/
def registerDeclaration (c : DeclarationContainer) (d : Declaration)
    (nameOverride : Option String) (invisible update : Bool) :
    Bool × DeclarationContainer :=
  let n := effectiveName d nameOverride
  if n = "" then
    (true, c)
  else if update then
    (true, if invisible then c.setInvisible n [d] else c.setVisible n [d])
  else if (c.conflictingDeclaration d nameOverride).isSome then
    (false, c)
  else if invisible then
    (true, c.setInvisible n (c.invisibleDeclarations n ++ [d]))
  else
    (true, c.setVisible n (c.declarations n ++ [d]))

/--
Modelled from the spec: the body of
`DeclarationContainer::resolveName` is in the unavailable
`DeclarationContainer.cpp`.  Following section 4.2: look the name up in
this scope's visible mapping only; a non-empty binding set shadows any
enclosing binding and is returned as is.  When the set is empty or
absent: with `recursive` set and an enclosing container present,
delegate to the enclosing container's recursive lookup; otherwise
return the empty sequence.
-/
def resolveName : DeclarationContainer → String → Bool → List Declaration
  | .outermost ds _, n, _ =>
    (match ds n with
     | [] => []
     | l => l)
  | .nested enc ds _, n, recursive =>
    match ds n with
    | [] => if recursive then resolveName enc n true else []
    | l => l

/--
A table is well formed when the empty name is bound in neither mapping.
Every table the program builds has this shape, because
`registerDeclaration` refuses to store an empty name; see
`noEmptyName_registerDeclaration` below.
-/
def noEmptyName (c : DeclarationContainer) : Prop :=
  c.declarations "" = [] ∧ c.invisibleDeclarations "" = []

/-- `noEmptyName` holding along the whole enclosing-scope chain. -/
def noEmptyNameChain : DeclarationContainer → Prop
  | .outermost ds inv => ds "" = [] ∧ inv "" = []
  | .nested enc ds inv => ds "" = [] ∧ inv "" = [] ∧ noEmptyNameChain enc

/--
The per-binding-set part of the overload invariant: a binding set of
size greater than one contains only overloadable declarations, and a
binding set containing a non-overloadable declaration has exactly one
member.
-/
def bindingSetOk (l : List Declaration) : Prop :=
  (1 < l.length → ∀ m ∈ l, m.overloadable = true) ∧
  (∀ m ∈ l, m.overloadable = false → l.length = 1)

/-- The overload invariant over both mappings of a table. -/
def overloadInvariant (c : DeclarationContainer) : Prop :=
  ∀ n : String,
    bindingSetOk (c.declarations n) ∧ bindingSetOk (c.invisibleDeclarations n)

/-- Run a sequence of `registerDeclaration` calls, left to right. -/
def registerAll (c : DeclarationContainer) :
    List (Declaration × Option String × Bool × Bool) → DeclarationContainer
  | [] => c
  | (d, o, inv, upd) :: rest => registerAll (c.registerDeclaration d o inv upd).2 rest

end DeclarationContainer

namespace DeclarationContainer

/-! ## Basic lemmas about the state accessors -/

@[simp]
theorem declarations_setVisible (c : DeclarationContainer) (n : String)
    (l : List Declaration) (m : String) :
    (c.setVisible n l).declarations m = if m = n then l else c.declarations m := by
  cases c <;> rfl

@[simp]
theorem invisibleDeclarations_setVisible (c : DeclarationContainer) (n : String)
    (l : List Declaration) (m : String) :
    (c.setVisible n l).invisibleDeclarations m = c.invisibleDeclarations m := by
  cases c <;> rfl

@[simp]
theorem enclosingContainer_setVisible (c : DeclarationContainer) (n : String)
    (l : List Declaration) :
    (c.setVisible n l).enclosingContainer = c.enclosingContainer := by
  cases c <;> rfl

@[simp]
theorem declarations_setInvisible (c : DeclarationContainer) (n : String)
    (l : List Declaration) (m : String) :
    (c.setInvisible n l).declarations m = c.declarations m := by
  cases c <;> rfl

@[simp]
theorem invisibleDeclarations_setInvisible (c : DeclarationContainer) (n : String)
    (l : List Declaration) (m : String) :
    (c.setInvisible n l).invisibleDeclarations m = if m = n then l else c.invisibleDeclarations m := by
  cases c <;> rfl

@[simp]
theorem enclosingContainer_setInvisible (c : DeclarationContainer) (n : String)
    (l : List Declaration) :
    (c.setInvisible n l).enclosingContainer = c.enclosingContainer := by
  cases c <;> rfl

/-- `resolveName` unfolded through the accessors. -/
theorem resolveName_eq (c : DeclarationContainer) (n : String) (r : Bool) :
    c.resolveName n r =
      if c.declarations n = [] then
        (if r then
          (match c.enclosingContainer with
           | some e => e.resolveName n true
           | none => [])
        else [])
      else c.declarations n := by
  cases c with
  | outermost ds inv =>
    cases h : ds n with
    | nil => simp [resolveName, declarations, enclosingContainer, h]
    | cons a l => simp [resolveName, declarations, h]
  | nested enc ds inv =>
    cases h : ds n with
    | nil => simp [resolveName, declarations, enclosingContainer, h]
    | cons a l => simp [resolveName, declarations, h]

/-- `conflictingDeclaration` finds nothing exactly when every existing
member under the effective name, in either mapping, is overloadable
together with the new declaration. -/
theorem conflictingDeclaration_eq_none_iff (c : DeclarationContainer)
    (d : Declaration) (o : Option String) :
    c.conflictingDeclaration d o = none ↔
      ∀ m ∈ c.declarations (effectiveName d o) ++
          c.invisibleDeclarations (effectiveName d o),
        d.overloadable = true ∧ m.overloadable = true := by
  simp only [conflictingDeclaration, List.find?_eq_none, List.mem_append,
    Bool.not_eq_true', Bool.not_eq_false, Bool.and_eq_true]

/-- A conflict reported by `conflictingDeclaration` is an existing
member of one of the two binding sets under the effective name. -/
theorem conflictingDeclaration_mem (c : DeclarationContainer)
    (d : Declaration) (o : Option String) (m : Declaration)
    (h : c.conflictingDeclaration d o = some m) :
    m ∈ c.declarations (effectiveName d o) ++
      c.invisibleDeclarations (effectiveName d o) := by
  exact List.mem_of_find?_eq_some h

end DeclarationContainer

/-! ## Concrete test data -/

/-- A non-overloadable declaration (e.g. a state variable) named `x`. -/
def varX1 : Declaration := ⟨1, "x", false⟩

/-- A second non-overloadable declaration named `x`. -/
def varX2 : Declaration := ⟨2, "x", false⟩

/-- An overloadable (function-like) declaration named `f`. -/
def funF1 : Declaration := ⟨3, "f", true⟩

/-- A second overloadable declaration named `f`. -/
def funF2 : Declaration := ⟨4, "f", true⟩

/-- An outermost scope table with no bindings at all. -/
def emptyScope : DeclarationContainer :=
  .outermost (fun _ => []) (fun _ => [])

/-- An outermost scope table visibly binding `x` to `varX1`. -/
def scopeWithVarX : DeclarationContainer :=
  .outermost (fun n => if n = "x" then [varX1] else []) (fun _ => [])

/-- A child of `scopeWithVarX` visibly binding `x` to `varX2`. -/
def childScopeWithVarX : DeclarationContainer :=
  .nested scopeWithVarX (fun n => if n = "x" then [varX2] else []) (fun _ => [])

/-- A child of `scopeWithVarX` with no bindings of its own. -/
def emptyChildScope : DeclarationContainer :=
  .nested scopeWithVarX (fun _ => []) (fun _ => [])

/-- An anonymous (empty-named) declaration. -/
def anonDecl : Declaration := ⟨5, "", false⟩

namespace DeclarationContainer

/-! ## Claims -/

/--
C1: with a non-empty name free in both mappings of a scope, after a
first successful non-update, non-invisible registration of `d1`, a
second non-update, non-invisible registration of `d2` under the same
name fails whenever `d1` or `d2` is not overloadable — regardless of
which of the two was registered first, since `d1` and `d2` are
arbitrary — and afterwards exactly the prior binding `[d1]` is present
for that name.
-/
theorem registerDeclaration_duplicate_fails
    (c : DeclarationContainer) (d1 d2 : Declaration) (o1 o2 : Option String)
    (n : String) (hn : n ≠ "")
    (h1 : effectiveName d1 o1 = n) (h2 : effectiveName d2 o2 = n)
    (hvis : c.declarations n = []) (hinv : c.invisibleDeclarations n = [])
    (hover : d1.overloadable = false ∨ d2.overloadable = false) :
    (c.registerDeclaration d1 o1 false false).1 = true ∧
    ((c.registerDeclaration d1 o1 false false).2.registerDeclaration d2 o2 false false).1 = false ∧
    ((c.registerDeclaration d1 o1 false false).2.registerDeclaration d2 o2 false false).2.declarations n = [d1] ∧
    ((c.registerDeclaration d1 o1 false false).2.registerDeclaration d2 o2 false false).2.invisibleDeclarations n = [] := by
  have hconf1 : c.conflictingDeclaration d1 o1 = none := by
    simp [conflictingDeclaration, h1, hvis, hinv]
  have hc1 : c.registerDeclaration d1 o1 false false = (true, c.setVisible n [d1]) := by
    simp [registerDeclaration, h1, hn, hconf1, hvis]
  have hd1vis : (c.setVisible n [d1]).declarations n = [d1] := by simp
  have hd1inv : (c.setVisible n [d1]).invisibleDeclarations n = [] := by simp [hinv]
  have hpred : (d2.overloadable && d1.overloadable) = false := by
    rcases hover with h | h <;> simp [h]
  have hconf2 : (c.setVisible n [d1]).conflictingDeclaration d2 o2 = some d1 := by
    simp [conflictingDeclaration, h2, hd1vis, hd1inv, List.find?, hpred]
    intro hd2
    rcases hover with h | h
    · exact h
    · exact absurd hd2 (by simp [h])
  have hc2 : (c.setVisible n [d1]).registerDeclaration d2 o2 false false
      = (false, c.setVisible n [d1]) := by
    simp [registerDeclaration, h2, hn, hconf2]
  rw [hc1]
  exact ⟨rfl, by rw [hc2], by rw [hc2]; exact hd1vis, by rw [hc2]; exact hd1inv⟩

/-- Witness for C1 at concrete inputs. -/
theorem registerDeclaration_duplicate_fails_witness :
    (emptyScope.registerDeclaration varX1 none false false).1 = true ∧
    ((emptyScope.registerDeclaration varX1 none false false).2.registerDeclaration varX2 none false false).1 = false ∧
    ((emptyScope.registerDeclaration varX1 none false false).2.registerDeclaration varX2 none false false).2.declarations "x" = [varX1] ∧
    ((emptyScope.registerDeclaration varX1 none false false).2.registerDeclaration varX2 none false false).2.invisibleDeclarations "x" = [] :=
  registerDeclaration_duplicate_fails emptyScope varX1 varX2 none none "x"
    (by decide) rfl rfl rfl rfl (Or.inl rfl)

/--
C2: with a non-empty name free in both mappings of a scope, two
distinct overloadable declarations registered non-update, non-invisible
under that name both succeed, and non-recursive `resolveName` then
returns exactly the two declarations in registration order.
-/
theorem registerDeclaration_overload_pair
    (c : DeclarationContainer) (d1 d2 : Declaration) (o1 o2 : Option String)
    (n : String) (hn : n ≠ "") (_hne : d1 ≠ d2)
    (h1 : effectiveName d1 o1 = n) (h2 : effectiveName d2 o2 = n)
    (hvis : c.declarations n = []) (hinv : c.invisibleDeclarations n = [])
    (hov1 : d1.overloadable = true) (hov2 : d2.overloadable = true) :
    (c.registerDeclaration d1 o1 false false).1 = true ∧
    ((c.registerDeclaration d1 o1 false false).2.registerDeclaration d2 o2 false false).1 = true ∧
    ((c.registerDeclaration d1 o1 false false).2.registerDeclaration d2 o2 false false).2.resolveName n false = [d1, d2] := by
  have hconf1 : c.conflictingDeclaration d1 o1 = none := by
    simp [conflictingDeclaration, h1, hvis, hinv]
  have hc1 : c.registerDeclaration d1 o1 false false = (true, c.setVisible n [d1]) := by
    simp [registerDeclaration, h1, hn, hconf1, hvis]
  have hd1vis : (c.setVisible n [d1]).declarations n = [d1] := by simp
  have hd1inv : (c.setVisible n [d1]).invisibleDeclarations n = [] := by simp [hinv]
  have hconf2 : (c.setVisible n [d1]).conflictingDeclaration d2 o2 = none := by
    simp [conflictingDeclaration, h2, hd1vis, hd1inv, List.find?, hov1, hov2]
  have hc2 : (c.setVisible n [d1]).registerDeclaration d2 o2 false false
      = (true, (c.setVisible n [d1]).setVisible n [d1, d2]) := by
    simp [registerDeclaration, h2, hn, hconf2, hd1vis]
  have hres : ((c.setVisible n [d1]).setVisible n [d1, d2]).resolveName n false = [d1, d2] := by
    rw [resolveName_eq]
    simp
  rw [hc1]
  exact ⟨rfl, by rw [hc2], by rw [hc2]; exact hres⟩

/-- Witness for C2 at concrete inputs. -/
theorem registerDeclaration_overload_pair_witness :
    (emptyScope.registerDeclaration funF1 none false false).1 = true ∧
    ((emptyScope.registerDeclaration funF1 none false false).2.registerDeclaration funF2 none false false).1 = true ∧
    ((emptyScope.registerDeclaration funF1 none false false).2.registerDeclaration funF2 none false false).2.resolveName "f" false = [funF1, funF2] :=
  registerDeclaration_overload_pair emptyScope funF1 funF2 none none "f"
    (by decide) (by decide) rfl rfl rfl rfl rfl rfl

/--
C3: for any scope table, declaration and non-empty effective name, an
`update` registration always succeeds, bypasses conflict detection, and
leaves the target mapping (invisible when the `invisible` flag is set,
visible otherwise) binding the name to the singleton of the given
declaration, any prior binding set for that name in the target mapping
— of any size and overloadability — having been discarded.
-/
theorem registerDeclaration_update_replaces
    (c : DeclarationContainer) (d : Declaration) (o : Option String)
    (n : String) (invisible : Bool)
    (hn : n ≠ "") (h : effectiveName d o = n) :
    (c.registerDeclaration d o invisible true).1 = true ∧
    (invisible = true →
      (c.registerDeclaration d o invisible true).2.invisibleDeclarations n = [d]) ∧
    (invisible = false →
      (c.registerDeclaration d o invisible true).2.declarations n = [d]) := by
  cases invisible with
  | false =>
    have hc : c.registerDeclaration d o false true = (true, c.setVisible n [d]) := by
      simp [registerDeclaration, h, hn]
    rw [hc]
    exact ⟨rfl, ⟨fun hcontra => Bool.noConfusion hcontra, fun _ => by simp⟩⟩
  | true =>
    have hc : c.registerDeclaration d o true true = (true, c.setInvisible n [d]) := by
      simp [registerDeclaration, h, hn]
    rw [hc]
    exact ⟨rfl, ⟨fun _ => by simp, fun hcontra => Bool.noConfusion hcontra⟩⟩

/-- Witness for C3 at concrete inputs: an update registration on a
scope already binding the name replaces the binding set. -/
theorem registerDeclaration_update_replaces_witness :
    (scopeWithVarX.registerDeclaration varX2 none false true).1 = true ∧
    (false = true →
      (scopeWithVarX.registerDeclaration varX2 none false true).2.invisibleDeclarations "x" = [varX2]) ∧
    (false = false →
      (scopeWithVarX.registerDeclaration varX2 none false true).2.declarations "x" = [varX2]) :=
  registerDeclaration_update_replaces scopeWithVarX varX2 none "x" false
    (by decide) rfl

/-- `resolveName` never consults the invisible mapping, so replacing an
invisible binding set leaves every `resolveName` result unchanged. -/
theorem resolveName_setInvisible (c : DeclarationContainer) (n : String)
    (l : List Declaration) (m : String) (r : Bool) :
    (c.setInvisible n l).resolveName m r = c.resolveName m r := by
  cases c <;> rfl

/--
C4: on any table built by the registration protocol (so the empty name
is unbound), `conflictingDeclaration` returns some existing member of
the binding sets under the effective name exactly when a non-update,
non-invisible `registerDeclaration` of the same declaration under the
same name would fail, and returns nothing exactly when it would
succeed.  The operation is a pure query of type
`Option Declaration`: it produces no new table, so it cannot mutate
the table and is safe to call speculatively.
-/
theorem conflictingDeclaration_characterizes_failure
    (c : DeclarationContainer) (d : Declaration) (o : Option String)
    (hwf : c.noEmptyName) :
    ((c.conflictingDeclaration d o).isSome ↔
      (c.registerDeclaration d o false false).1 = false) ∧
    (∀ m, c.conflictingDeclaration d o = some m →
      m ∈ c.declarations (effectiveName d o) ++
        c.invisibleDeclarations (effectiveName d o)) := by
  refine ⟨?_, fun m hm => conflictingDeclaration_mem c d o m hm⟩
  by_cases hn : effectiveName d o = ""
  · have hconf : c.conflictingDeclaration d o = none := by
      simp [conflictingDeclaration, hn, hwf.1, hwf.2]
    simp [registerDeclaration, hn, hconf]
  · by_cases hc : (c.conflictingDeclaration d o).isSome
    · simp [registerDeclaration, hn, hc]
    · simp [registerDeclaration, hn, hc]

/-- Witness for C4 at concrete inputs: on a scope binding `x`
non-overloadably, registering a second `x` would fail and the conflict
query reports a prior member. -/
theorem conflictingDeclaration_characterizes_failure_witness :
    ((scopeWithVarX.conflictingDeclaration varX2 none).isSome ↔
      (scopeWithVarX.registerDeclaration varX2 none false false).1 = false) ∧
    (∀ m, scopeWithVarX.conflictingDeclaration varX2 none = some m →
      m ∈ scopeWithVarX.declarations (effectiveName varX2 none) ++
        scopeWithVarX.invisibleDeclarations (effectiveName varX2 none)) :=
  conflictingDeclaration_characterizes_failure scopeWithVarX varX2 none ⟨rfl, rfl⟩

/--
C5: when scope table A has no enclosing scope and visibly binds a name
to `[d1]`, and child scope B, whose enclosing scope is A, visibly
binds the same name to `[d2]`, then recursive `resolveName` on B
returns exactly `[d2]`: the inner binding shadows the outer one and
the two binding sets are never merged.
-/
theorem resolveName_shadows
    (a b : DeclarationContainer) (d1 d2 : Declaration) (x : String)
    (_ha : a.enclosingContainer = none)
    (_havis : a.declarations x = [d1])
    (_hb : b.enclosingContainer = some a)
    (hbvis : b.declarations x = [d2]) :
    b.resolveName x true = [d2] := by
  rw [resolveName_eq, hbvis]
  simp

/-- Witness for C5 at concrete scopes. -/
theorem resolveName_shadows_witness :
    childScopeWithVarX.resolveName "x" true = [varX2] :=
  resolveName_shadows scopeWithVarX childScopeWithVarX varX1 varX2 "x"
    rfl (by simp [scopeWithVarX, declarations]) rfl
    (by simp [childScopeWithVarX, declarations])

/--
C6: an invisible registration of `d1` under a fresh non-empty name
succeeds and occupies the name: a later non-update, visible
registration of a non-overloadable `d2` under the same name in the
same scope fails.  Yet the invisible binding is never returned by
`resolveName`: non-recursively the name resolves to the empty
sequence, and in fact every `resolveName` result of the scope is
exactly what it was before the invisible registration.
-/
theorem invisible_occupies_without_resolving
    (c : DeclarationContainer) (d1 d2 : Declaration) (o1 o2 : Option String)
    (n : String) (hn : n ≠ "")
    (h1 : effectiveName d1 o1 = n) (h2 : effectiveName d2 o2 = n)
    (hvis : c.declarations n = []) (hinv : c.invisibleDeclarations n = [])
    (hov2 : d2.overloadable = false) :
    (c.registerDeclaration d1 o1 true false).1 = true ∧
    ((c.registerDeclaration d1 o1 true false).2.registerDeclaration d2 o2 false false).1 = false ∧
    (c.registerDeclaration d1 o1 true false).2.resolveName n false = [] ∧
    (∀ m r, (c.registerDeclaration d1 o1 true false).2.resolveName m r = c.resolveName m r) := by
  have hconf1 : c.conflictingDeclaration d1 o1 = none := by
    simp [conflictingDeclaration, h1, hvis, hinv]
  have hc1 : c.registerDeclaration d1 o1 true false = (true, c.setInvisible n [d1]) := by
    simp [registerDeclaration, h1, hn, hconf1, hinv]
  have hd1vis : (c.setInvisible n [d1]).declarations n = [] := by simp [hvis]
  have hd1inv : (c.setInvisible n [d1]).invisibleDeclarations n = [d1] := by simp
  have hconf2 : (c.setInvisible n [d1]).conflictingDeclaration d2 o2 = some d1 := by
    simp [conflictingDeclaration, h2, hd1vis, hd1inv, List.find?, hov2]
  have hc2 : (c.setInvisible n [d1]).registerDeclaration d2 o2 false false
      = (false, c.setInvisible n [d1]) := by
    simp [registerDeclaration, h2, hn, hconf2]
  rw [hc1]
  refine ⟨rfl, by rw [hc2], ?_, fun m r => resolveName_setInvisible c n [d1] m r⟩
  rw [resolveName_setInvisible, resolveName_eq, hvis]
  simp

/-- Witness for C6 at concrete inputs. -/
theorem invisible_occupies_without_resolving_witness :
    (emptyScope.registerDeclaration varX1 none true false).1 = true ∧
    ((emptyScope.registerDeclaration varX1 none true false).2.registerDeclaration varX2 none false false).1 = false ∧
    (emptyScope.registerDeclaration varX1 none true false).2.resolveName "x" false = [] ∧
    (∀ m r, (emptyScope.registerDeclaration varX1 none true false).2.resolveName m r = emptyScope.resolveName m r) :=
  invisible_occupies_without_resolving emptyScope varX1 varX2 none none "x"
    (by decide) rfl rfl rfl rfl rfl

/--
C7: a failed `registerDeclaration` call leaves the scope table exactly
as it was before the call — both mappings and the enclosing link
unchanged, an atomic no-op — and no `registerDeclaration` call, failed
or successful, ever changes the enclosing scope table reference (the
model's declarations are immutable values, so no call modifies any
`Declaration`).
-/
theorem registerDeclaration_failure_atomic
    (c : DeclarationContainer) (d : Declaration) (o : Option String)
    (invisible update : Bool) :
    ((c.registerDeclaration d o invisible update).1 = false →
      (c.registerDeclaration d o invisible update).2 = c) ∧
    (c.registerDeclaration d o invisible update).2.enclosingContainer = c.enclosingContainer := by
  rcases update with _ | _ <;> rcases invisible with _ | _ <;>
    by_cases hn : effectiveName d o = "" <;>
    by_cases hc : (c.conflictingDeclaration d o).isSome <;>
    simp [registerDeclaration, hn, hc]

/-- Witness for C7 at a concrete failing call: registering a second
non-overloadable `x` fails and returns the untouched table. -/
theorem registerDeclaration_failure_atomic_witness :
    (scopeWithVarX.registerDeclaration varX2 none false false).2 = scopeWithVarX ∧
    (scopeWithVarX.registerDeclaration varX2 none false false).2.enclosingContainer = scopeWithVarX.enclosingContainer :=
  ⟨(registerDeclaration_failure_atomic scopeWithVarX varX2 none false false).1 (by decide),
   (registerDeclaration_failure_atomic scopeWithVarX varX2 none false false).2⟩

/-- `registerDeclaration` never stores an empty name, so tables built
by the registration protocol keep the empty name unbound. -/
theorem noEmptyName_registerDeclaration
    (c : DeclarationContainer) (d : Declaration) (o : Option String)
    (invisible update : Bool) (h : c.noEmptyName) :
    (c.registerDeclaration d o invisible update).2.noEmptyName := by
  by_cases hn : effectiveName d o = ""
  · simpa [registerDeclaration, hn] using h
  · have hne : ("" : String) ≠ effectiveName d o := fun heq => hn heq.symm
    rcases update with _ | _ <;> rcases invisible with _ | _ <;>
      by_cases hc : (c.conflictingDeclaration d o).isSome <;>
      simp [registerDeclaration, hn, hc, noEmptyName, hne, h.1, h.2]

/-- The empty binding set satisfies the overload invariant. -/
theorem bindingSetOk_nil : bindingSetOk [] := by
  constructor <;> simp

/-- A singleton binding set satisfies the overload invariant. -/
theorem bindingSetOk_singleton (d : Declaration) : bindingSetOk [d] := by
  constructor <;> simp

/-- Appending a declaration to a binding set preserves the overload
invariant, provided that whenever the set is non-empty, the new
declaration and every existing member are overloadable. -/
theorem bindingSetOk_append (l : List Declaration) (d : Declaration)
    (h : l ≠ [] → d.overloadable = true ∧ ∀ m ∈ l, m.overloadable = true) :
    bindingSetOk (l ++ [d]) := by
  cases l with
  | nil => simpa using bindingSetOk_singleton d
  | cons a t =>
    obtain ⟨hd, hall⟩ := h (by simp)
    constructor
    · intro _ m hm
      rcases List.mem_append.1 hm with hm | hm
      · exact hall m hm
      · rw [List.mem_singleton.1 hm]; exact hd
    · intro m hm hfalse
      exfalso
      rcases List.mem_append.1 hm with hm | hm
      · rw [hall m hm] at hfalse; cases hfalse
      · rw [List.mem_singleton.1 hm] at hfalse; rw [hd] at hfalse; cases hfalse

/-- A single `registerDeclaration` call preserves the overload
invariant of both mappings. -/
theorem overloadInvariant_registerDeclaration
    (c : DeclarationContainer) (d : Declaration) (o : Option String)
    (invisible update : Bool) (h : overloadInvariant c) :
    overloadInvariant (c.registerDeclaration d o invisible update).2 := by
  by_cases hn : effectiveName d o = ""
  · simpa [registerDeclaration, hn] using h
  · rcases update with _ | _
    · by_cases hc : (c.conflictingDeclaration d o).isSome
      · simpa [registerDeclaration, hn, hc] using h
      · have hnone : c.conflictingDeclaration d o = none :=
          Option.not_isSome_iff_eq_none.mp hc
        have hall := (conflictingDeclaration_eq_none_iff c d o).mp hnone
        rcases invisible with _ | _
        · have hstep : c.registerDeclaration d o false false
              = (true, c.setVisible (effectiveName d o)
                  (c.declarations (effectiveName d o) ++ [d])) := by
            simp [registerDeclaration, hn, hc]
          rw [hstep]
          intro n
          refine ⟨?_, ?_⟩
          · simp only [declarations_setVisible]
            by_cases hEq : n = effectiveName d o
            · rw [if_pos hEq]
              apply bindingSetOk_append
              intro hne
              obtain ⟨m0, hm0⟩ := List.exists_mem_of_ne_nil _ hne
              exact ⟨(hall m0 (List.mem_append_left _ hm0)).1,
                fun m hm => (hall m (List.mem_append_left _ hm)).2⟩
            · rw [if_neg hEq]; exact (h n).1
          · simp only [invisibleDeclarations_setVisible]; exact (h n).2
        · have hstep : c.registerDeclaration d o true false
              = (true, c.setInvisible (effectiveName d o)
                  (c.invisibleDeclarations (effectiveName d o) ++ [d])) := by
            simp [registerDeclaration, hn, hc]
          rw [hstep]
          intro n
          refine ⟨?_, ?_⟩
          · simp only [declarations_setInvisible]; exact (h n).1
          · simp only [invisibleDeclarations_setInvisible]
            by_cases hEq : n = effectiveName d o
            · rw [if_pos hEq]
              apply bindingSetOk_append
              intro hne
              obtain ⟨m0, hm0⟩ := List.exists_mem_of_ne_nil _ hne
              exact ⟨(hall m0 (List.mem_append_right _ hm0)).1,
                fun m hm => (hall m (List.mem_append_right _ hm)).2⟩
            · rw [if_neg hEq]; exact (h n).2
    · rcases invisible with _ | _
      · have hstep : c.registerDeclaration d o false true
            = (true, c.setVisible (effectiveName d o) [d]) := by
          simp [registerDeclaration, hn]
        rw [hstep]
        intro n
        refine ⟨?_, ?_⟩
        · simp only [declarations_setVisible]
          by_cases hEq : n = effectiveName d o
          · rw [if_pos hEq]; exact bindingSetOk_singleton d
          · rw [if_neg hEq]; exact (h n).1
        · simp only [invisibleDeclarations_setVisible]; exact (h n).2
      · have hstep : c.registerDeclaration d o true true
            = (true, c.setInvisible (effectiveName d o) [d]) := by
          simp [registerDeclaration, hn]
        rw [hstep]
        intro n
        refine ⟨?_, ?_⟩
        · simp only [declarations_setInvisible]; exact (h n).1
        · simp only [invisibleDeclarations_setInvisible]
          by_cases hEq : n = effectiveName d o
          · rw [if_pos hEq]; exact bindingSetOk_singleton d
          · rw [if_neg hEq]; exact (h n).2

/--
C8: the overload invariant — in both the visible and the invisible
mapping, every binding set of size greater than one contains only
overloadable declarations, and a binding set containing a
non-overloadable declaration has exactly one member — is preserved by
every sequence of `registerDeclaration` calls on a scope table.
-/
theorem overloadInvariant_registerAll
    (c : DeclarationContainer)
    (calls : List (Declaration × Option String × Bool × Bool))
    (h : overloadInvariant c) :
    overloadInvariant (c.registerAll calls) := by
  induction calls generalizing c with
  | nil => exact h
  | cons head rest ih =>
    obtain ⟨d, o, invisible, update⟩ := head
    exact ih _ (overloadInvariant_registerDeclaration c d o invisible update h)

/-- The empty scope table satisfies the overload invariant. -/
theorem overloadInvariant_emptyScope : overloadInvariant emptyScope :=
  fun _ => ⟨bindingSetOk_nil, bindingSetOk_nil⟩

/-- Witness for C8: a concrete call sequence mixing visible, invisible,
overloadable, non-overloadable and update registrations. -/
theorem overloadInvariant_registerAll_witness :
    overloadInvariant (emptyScope.registerAll
      [(varX1, none, false, false), (varX2, none, false, false),
       (funF1, none, false, false), (funF2, none, false, false),
       (varX1, some "f", true, false), (varX2, some "f", false, true)]) :=
  overloadInvariant_registerAll emptyScope
    [(varX1, none, false, false), (varX2, none, false, false),
     (funF1, none, false, false), (funF2, none, false, false),
     (varX1, some "f", true, false), (varX2, some "f", false, true)]
    overloadInvariant_emptyScope

/--
C9: conflict detection consults only the current scope's two mappings,
never enclosing scopes: when a name is bound (visibly or invisibly)
only in the enclosing scope A and is free in both mappings of child
scope B, `conflictingDeclaration` on B returns nothing for any
declaration with that effective name, and a non-update, non-invisible
`registerDeclaration` of a non-overloadable declaration under that
name on B succeeds.
-/
theorem conflictingDeclaration_ignores_enclosing
    (a b : DeclarationContainer) (d : Declaration) (o : Option String)
    (n : String) (hn : n ≠ "")
    (_hb : b.enclosingContainer = some a)
    (_hbound : a.declarations n ≠ [] ∨ a.invisibleDeclarations n ≠ [])
    (hbvis : b.declarations n = []) (hbinv : b.invisibleDeclarations n = [])
    (heff : effectiveName d o = n) (_hov : d.overloadable = false) :
    b.conflictingDeclaration d o = none ∧
    (b.registerDeclaration d o false false).1 = true := by
  have hconf : b.conflictingDeclaration d o = none := by
    simp [conflictingDeclaration, heff, hbvis, hbinv]
  exact ⟨hconf, by simp [registerDeclaration, heff, hn, hconf]⟩

/-- Witness for C9 at concrete scopes: `x` is bound in the enclosing
scope, yet the child scope accepts a fresh non-overloadable `x`. -/
theorem conflictingDeclaration_ignores_enclosing_witness :
    emptyChildScope.conflictingDeclaration varX2 none = none ∧
    (emptyChildScope.registerDeclaration varX2 none false false).1 = true :=
  conflictingDeclaration_ignores_enclosing scopeWithVarX emptyChildScope varX2
    none "x" (by decide) rfl (Or.inl (by decide)) rfl rfl rfl rfl

/-- A chain-well-formed table resolves the empty name to the empty
sequence, recursively or not. -/
theorem resolveName_empty_of_chain (c : DeclarationContainer)
    (h : noEmptyNameChain c) : ∀ r, c.resolveName "" r = [] := by
  induction c with
  | outermost ds inv =>
    intro r
    simp only [noEmptyNameChain] at h
    simp [resolveName, h.1]
  | nested enc ds inv ih =>
    intro r
    simp only [noEmptyNameChain] at h
    cases r <;> simp [resolveName, h.1, ih h.2.2]

/-- Chain well-formedness restricted to the current scope. -/
theorem noEmptyName_of_chain (c : DeclarationContainer)
    (h : noEmptyNameChain c) : c.noEmptyName := by
  cases c with
  | outermost ds inv =>
    simp only [noEmptyNameChain] at h
    exact ⟨h.1, h.2⟩
  | nested enc ds inv =>
    simp only [noEmptyNameChain] at h
    exact ⟨h.1, h.2.1⟩

/--
C10: registering a declaration whose effective name is empty succeeds
for every combination of the `invisible` and `update` flags and
returns the table unchanged, so both mappings are untouched; on any
table built by the registration protocol the empty name afterwards
resolves to the empty sequence (recursively or not) and is absent from
the visible-declarations mapping.
-/
theorem registerDeclaration_empty_name
    (c : DeclarationContainer) (d : Declaration) (o : Option String)
    (invisible update : Bool) (h : effectiveName d o = "") :
    c.registerDeclaration d o invisible update = (true, c) ∧
    (noEmptyNameChain c →
      (∀ r, (c.registerDeclaration d o invisible update).2.resolveName "" r = []) ∧
      (c.registerDeclaration d o invisible update).2.declarations "" = []) := by
  have hreg : c.registerDeclaration d o invisible update = (true, c) := by
    simp [registerDeclaration, h]
  refine ⟨hreg, fun hwf => ?_⟩
  rw [hreg]
  exact ⟨fun r => resolveName_empty_of_chain c hwf r, (noEmptyName_of_chain c hwf).1⟩

/-- Witness for C10: an anonymous declaration registered on a scope
that already binds `x` changes nothing. -/
theorem registerDeclaration_empty_name_witness :
    scopeWithVarX.registerDeclaration anonDecl none false false = (true, scopeWithVarX) ∧
    ((∀ r, (scopeWithVarX.registerDeclaration anonDecl none false false).2.resolveName "" r = []) ∧
      (scopeWithVarX.registerDeclaration anonDecl none false false).2.declarations "" = []) :=
  ⟨(registerDeclaration_empty_name scopeWithVarX anonDecl none false false rfl).1,
   (registerDeclaration_empty_name scopeWithVarX anonDecl none false false rfl).2
     ⟨by decide, by decide⟩⟩

end DeclarationContainer
